import Mathlib

/-!
Shallow embedding of the versioning core of `src/versioning.py`
(classes `Versioning` and `Version`), together with theorems about
reference resolution, version lookup, parent links and the derived
branch/tag indices.

Python dictionaries read from JSON are modelled as association lists
`List (String × α)` with first-match lookup (`dictLookup`); raising an
exception is modelled by the result type `Exc`.
-/

/-- Errors the versioning core can raise.
`indexError` models the `IndexError("Ref is not available in versioning.")`
raised by `Versioning.resolve_ref` when a ref matches no version, branch or
tag (the unresolved-reference error of the specification); `keyError k`
models the `KeyError` a Python dict lookup raises for a missing key `k`
(the dangling-reference error of the specification). -/
inductive VError where
  | indexError : VError
  | keyError : String → VError
deriving DecidableEq

/-- The outcome of a Python call: a returned value or a raised error. -/
inductive Exc (α : Type) where
  | ok : α → Exc α
  | error : VError → Exc α
deriving DecidableEq

/-- Python dict lookup over an association list: the first matching key. -/
def dictLookup {α : Type} (m : List (String × α)) (k : String) : Option α :=
  match m with
  | [] => none
  | (k1, v1) :: rest => if k1 = k then some v1 else dictLookup rest k

/-- The JSON data stored for one version: the fields the code reads
(`author`, `message`, `date`, `objects`, and an optional `parents` key —
`none` models a stored dict with no `"parents"` entry, `some l` a stored
entry holding the list `l`).  The city-model snapshot is opaque to the
versioning core, so `objects` has an arbitrary type `Obj`. -/
structure VData (Obj : Type) where
  author : String
  message : String
  date : String
  parents : Option (List String)
  objects : Obj
deriving DecidableEq

/-- The raw `"versioning"` JSON sub-object: `versions`, `branches`, `tags`. -/
structure VersioningJson (Obj : Type) where
  versions : List (String × VData Obj)
  branches : List (String × String)
  tags : List (String × String)
deriving DecidableEq

/-- The `Versioning` class: a view over the raw versioning JSON
(field `_json` in the source). -/
structure Versioning (Obj : Type) where
  _json : VersioningJson Obj
deriving DecidableEq

/-- The `Version` class: the stored data of one version (`_json`) and the
version's name (`_version_name`, the key it was stored under). -/
structure Version (Obj : Type) where
  _json : VData Obj
  _version_name : String
deriving DecidableEq

/-- `Version.name`: returns the id of this version. -/
def Version.name {Obj : Type} (ver : Version Obj) : String :=
  ver._version_name

/-- `Version.author`: returns the author of this version. -/
def Version.author {Obj : Type} (ver : Version Obj) : String :=
  ver._json.author

/-- `Version.message` (getter): returns the message of this version. -/
def Version.message {Obj : Type} (ver : Version Obj) : String :=
  ver._json.message

/-- `Version.message` (setter): rewrites `self._json["message"]` in place,
leaving every other entry of the stored data and the version name alone. -/
def Version.set_message {Obj : Type} (ver : Version Obj) (value : String) : Version Obj :=
  { ver with _json := { ver._json with message := value } }

/-- `Version.date`: returns the date and time of this version. -/
def Version.date {Obj : Type} (ver : Version Obj) : String :=
  ver._json.date

/-- `Version.has_parents`: `"parents" in self._json` — true exactly when the
stored data carries a `"parents"` entry, whatever list it holds. -/
def Version.has_parents {Obj : Type} (ver : Version Obj) : Bool :=
  ver._json.parents.isSome

/-- `Versioning.versions`: the derived dict `{k : Version(self, j, k)}`
built from the raw `versions` object on every access. -/
def Versioning.versions {Obj : Type} (v : Versioning Obj) : List (String × Version Obj) :=
  v._json.versions.map (fun kj => (kj.1, Version.mk kj.2 kj.1))

/-- `Versioning.resolve_ref`: if `ref` is a key of the derived `versions`
dict return it unchanged; else if it is a key of the raw `branches` object
return that branch's target; else if it is a key of the raw `tags` object
return that tag's target; else raise `IndexError`. -/
def Versioning.resolve_ref {Obj : Type} (v : Versioning Obj) (ref : String) : Exc String :=
  if (dictLookup (Versioning.versions v) ref).isSome then Exc.ok ref
  else
    match dictLookup v._json.branches ref with
    | some t => Exc.ok t
    | none =>
      match dictLookup v._json.tags ref with
      | some t => Exc.ok t
      | none => Exc.error VError.indexError

/-- `Versioning.get_version_from_ref`: `self.versions[self.resolve_ref(ref)]`.
A raised error of `resolve_ref` propagates; a successful resolution is then
looked up in the derived `versions` dict, raising `KeyError` when absent. -/
def Versioning.get_version_from_ref {Obj : Type} (v : Versioning Obj) (ref : String) :
    Exc (Version Obj) :=
  match Versioning.resolve_ref v ref with
  | Exc.error e => Exc.error e
  | Exc.ok n =>
    match dictLookup (Versioning.versions v) n with
    | some ver => Exc.ok ver
    | none => Exc.error (VError.keyError n)

/-- Left-to-right evaluation of the comprehension
`{k : self.versions[j] for k, j in entries}`: the first entry whose target
`j` is missing from the versions dict raises `KeyError(j)`. -/
def resolveTargets {Obj : Type} (vs : List (String × Version Obj)) :
    List (String × String) → Exc (List (String × Version Obj))
  | [] => Exc.ok []
  | (k, j) :: rest =>
    match dictLookup vs j with
    | none => Exc.error (VError.keyError j)
    | some ver =>
      match resolveTargets vs rest with
      | Exc.ok acc => Exc.ok ((k, ver) :: acc)
      | Exc.error e => Exc.error e

/-- `Versioning.branches`: the derived dict `{k : self.versions[j]}` over the
raw `branches` object; raises `KeyError` on a dangling target. -/
def Versioning.branches {Obj : Type} (v : Versioning Obj) :
    Exc (List (String × Version Obj)) :=
  resolveTargets (Versioning.versions v) v._json.branches

/-- `Versioning.tags`: the derived dict `{k : self.versions[j]}` over the
raw `tags` object; raises `KeyError` on a dangling target. -/
def Versioning.tags {Obj : Type} (v : Versioning Obj) :
    Exc (List (String × Version Obj)) :=
  resolveTargets (Versioning.versions v) v._json.tags

/-- Left-to-right evaluation of the comprehension
`[self._versioning.versions[p] for p in parents]`: the first parent name
missing from the versions dict raises `KeyError`. -/
def lookupParents {Obj : Type} (vs : List (String × Version Obj)) :
    List String → Exc (List (Version Obj))
  | [] => Exc.ok []
  | p :: rest =>
    match dictLookup vs p with
    | none => Exc.error (VError.keyError p)
    | some pv =>
      match lookupParents vs rest with
      | Exc.ok acc => Exc.ok (pv :: acc)
      | Exc.error e => Exc.error e

/-- `Version.parents`: when `has_parents()` holds, look every stored parent
name up in the versioning's derived `versions` dict; otherwise return `[]`. -/
def Version.parents {Obj : Type} (v : Versioning Obj) (ver : Version Obj) :
    Exc (List (Version Obj)) :=
  if Version.has_parents ver then
    lookupParents (Versioning.versions v) (ver._json.parents.getD [])
  else Exc.ok []

/-- `Version.branches`: the branch names of the versioning whose resolved
target's name equals this version's name.  An error raised while building
the versioning-level `branches` dict propagates. -/
def Version.branches {Obj : Type} (v : Versioning Obj) (ver : Version Obj) :
    Exc (List String) :=
  match Versioning.branches v with
  | Exc.error e => Exc.error e
  | Exc.ok bs =>
    Exc.ok ((bs.filter (fun kv => Version.name kv.2 == Version.name ver)).map Prod.fst)

/-- `Version.tags`: the tag names of the versioning whose resolved target's
name equals this version's name.  An error raised while building the
versioning-level `tags` dict propagates. -/
def Version.tags {Obj : Type} (v : Versioning Obj) (ver : Version Obj) :
    Exc (List String) :=
  match Versioning.tags v with
  | Exc.error e => Exc.error e
  | Exc.ok ts =>
    Exc.ok ((ts.filter (fun kv => Version.name kv.2 == Version.name ver)).map Prod.fst)

/-- The well-formedness invariant of the specification: every branch and tag
target is a key of `versions`. -/
def Versioning.well_formed {Obj : Type} (v : Versioning Obj) : Bool :=
  v._json.branches.all (fun kv => (dictLookup v._json.versions kv.2).isSome) &&
  v._json.tags.all (fun kv => (dictLookup v._json.versions kv.2).isSome)

/-! ### Concrete documents used as witnesses and counterexamples -/

/-- Stored data of a root version (no `"parents"` entry). -/
def dA : VData Unit :=
  { author := "alice", message := "root", date := "2020-01-01", parents := none,
    objects := () }

/-- Stored data of a successor version with parent `"A"`. -/
def dB : VData Unit :=
  { author := "bob", message := "second", date := "2020-01-02", parents := some ["A"],
    objects := () }

/-- Stored data carrying a `"parents"` entry equal to the empty list. -/
def dE : VData Unit :=
  { author := "eve", message := "empty", date := "2020-01-03", parents := some [],
    objects := () }

/-- The version stored under key `"A"`. -/
def verA : Version Unit := Version.mk dA "A"

/-- The version stored under key `"B"`. -/
def verB : Version Unit := Version.mk dB "B"

/-- A version whose stored data holds an empty `"parents"` list. -/
def verE : Version Unit := Version.mk dE "E"

/-- A well-formed document with versions `A`, `B`, a branch `"A" -> "B"`
whose name is shadowed by version `A`, a branch `"main" -> "B"` and a tag
`"t1" -> "A"`. -/
def exV : Versioning Unit :=
  Versioning.mk (VersioningJson.mk [("A", dA), ("B", dB)]
    [("A", "B"), ("main", "B")] [("t1", "A")])

/-- A document with one version `A`, a dangling branch `"ghost" -> "Z"` and
a dangling tag `"ghostT" -> "Z"` (no version `Z` exists). -/
def ghostV : Versioning Unit :=
  Versioning.mk (VersioningJson.mk [("A", dA)] [("ghost", "Z")] [("ghostT", "Z")])

/-! ### Helper lemmas -/

/-- Lookup in the derived `versions` dict is lookup in the raw `versions`
object, wrapping the stored data in a `Version` named by the key. -/
theorem dictLookup_map_mk {Obj : Type} (l : List (String × VData Obj)) (k : String) :
    dictLookup (l.map (fun kj => (kj.1, Version.mk kj.2 kj.1))) k =
      (dictLookup l k).map (fun j => Version.mk j k) := by
  induction l with
  | nil => rfl
  | cons kj rest ih =>
    obtain ⟨k1, j1⟩ := kj
    by_cases h : k1 = k
    · subst h; simp [dictLookup]
    · simp [dictLookup, h, ih]

theorem lookup_versions_eq {Obj : Type} (v : Versioning Obj) (k : String) :
    dictLookup (Versioning.versions v) k =
      (dictLookup v._json.versions k).map (fun j => Version.mk j k) :=
  dictLookup_map_mk v._json.versions k

theorem isSome_lookup_versions {Obj : Type} (v : Versioning Obj) (k : String) :
    (dictLookup (Versioning.versions v) k).isSome =
      (dictLookup v._json.versions k).isSome := by
  rw [lookup_versions_eq]; cases dictLookup v._json.versions k <;> rfl

theorem lookup_versions_none {Obj : Type} (v : Versioning Obj) (k : String) :
    dictLookup (Versioning.versions v) k = none ↔
      dictLookup v._json.versions k = none := by
  rw [lookup_versions_eq]; cases dictLookup v._json.versions k <;> simp

/-- A version found in the derived `versions` dict is named by its key. -/
theorem lookup_versions_name {Obj : Type} (v : Versioning Obj) (k : String)
    (ver : Version Obj) (h : dictLookup (Versioning.versions v) k = some ver) :
    Version.name ver = k := by
  rw [lookup_versions_eq] at h
  cases hd : dictLookup v._json.versions k with
  | none => rw [hd] at h; cases h
  | some j => rw [hd] at h; cases h; rfl

theorem resolve_ref_of_version {Obj : Type} (v : Versioning Obj) (ref : String)
    (h : (dictLookup v._json.versions ref).isSome = true) :
    Versioning.resolve_ref v ref = Exc.ok ref := by
  unfold Versioning.resolve_ref
  rw [isSome_lookup_versions, h]
  simp

theorem resolve_ref_of_branch {Obj : Type} (v : Versioning Obj) (ref t : String)
    (h1 : dictLookup v._json.versions ref = none)
    (h2 : dictLookup v._json.branches ref = some t) :
    Versioning.resolve_ref v ref = Exc.ok t := by
  unfold Versioning.resolve_ref
  rw [isSome_lookup_versions, h1, h2]
  simp

theorem resolve_ref_of_tag {Obj : Type} (v : Versioning Obj) (ref t : String)
    (h1 : dictLookup v._json.versions ref = none)
    (h2 : dictLookup v._json.branches ref = none)
    (h3 : dictLookup v._json.tags ref = some t) :
    Versioning.resolve_ref v ref = Exc.ok t := by
  unfold Versioning.resolve_ref
  rw [isSome_lookup_versions, h1, h2, h3]
  simp

theorem resolve_ref_of_none {Obj : Type} (v : Versioning Obj) (ref : String)
    (h1 : dictLookup v._json.versions ref = none)
    (h2 : dictLookup v._json.branches ref = none)
    (h3 : dictLookup v._json.tags ref = none) :
    Versioning.resolve_ref v ref = Exc.error VError.indexError := by
  unfold Versioning.resolve_ref
  rw [isSome_lookup_versions, h1, h2, h3]
  simp

theorem get_version_from_ref_ok {Obj : Type} (v : Versioning Obj) (ref n : String)
    (ver : Version Obj) (h1 : Versioning.resolve_ref v ref = Exc.ok n)
    (h2 : dictLookup (Versioning.versions v) n = some ver) :
    Versioning.get_version_from_ref v ref = Exc.ok ver := by
  unfold Versioning.get_version_from_ref
  rw [h1]; simp [h2]

theorem get_version_from_ref_dangling {Obj : Type} (v : Versioning Obj) (ref n : String)
    (h1 : Versioning.resolve_ref v ref = Exc.ok n)
    (h2 : dictLookup (Versioning.versions v) n = none) :
    Versioning.get_version_from_ref v ref = Exc.error (VError.keyError n) := by
  unfold Versioning.get_version_from_ref
  rw [h1]; simp [h2]

theorem get_version_from_ref_error {Obj : Type} (v : Versioning Obj) (ref : String)
    (e : VError) (h : Versioning.resolve_ref v ref = Exc.error e) :
    Versioning.get_version_from_ref v ref = Exc.error e := by
  unfold Versioning.get_version_from_ref
  rw [h]

/-- When every name of `ps` is a key of `vs`, `lookupParents` succeeds and
returns the looked-up versions in the order of `ps`. -/
theorem lookupParents_ok {Obj : Type} (vs : List (String × Version Obj))
    (ps : List String) (h : ∀ p ∈ ps, (dictLookup vs p).isSome = true) :
    lookupParents vs ps = Exc.ok (ps.filterMap (fun p => dictLookup vs p)) := by
  induction ps with
  | nil => rfl
  | cons p rest ih =>
    obtain ⟨pv, hpv⟩ := Option.isSome_iff_exists.1 (h p (by simp))
    have hrest := ih (fun q hq => h q (by simp [hq]))
    simp [lookupParents, hpv, hrest, List.filterMap_cons]

/-- When some name of `ps` is missing from `vs`, `lookupParents` raises a
`KeyError` naming a missing entry of `ps`. -/
theorem lookupParents_error {Obj : Type} (vs : List (String × Version Obj))
    (ps : List String) (p0 : String) (hmem : p0 ∈ ps)
    (hmiss : dictLookup vs p0 = none) :
    ∃ n, n ∈ ps ∧ dictLookup vs n = none ∧
      lookupParents vs ps = Exc.error (VError.keyError n) := by
  induction ps with
  | nil => cases hmem
  | cons p rest ih =>
    cases hp : dictLookup vs p with
    | none => exact ⟨p, by simp, hp, by simp [lookupParents, hp]⟩
    | some pv =>
      have hmem' : p0 ∈ rest := by
        rcases List.mem_cons.1 hmem with h | h
        · subst h; rw [hp] at hmiss; cases hmiss
        · exact h
      obtain ⟨n, hn1, hn2, hn3⟩ := ih hmem'
      exact ⟨n, by simp [hn1], hn2, by simp [lookupParents, hp, hn3]⟩

/-- When some entry of `entries` has a target missing from `vs`,
`resolveTargets` raises a `KeyError` naming a missing target. -/
theorem resolveTargets_error {Obj : Type} (vs : List (String × Version Obj))
    (entries : List (String × String)) (b tb : String)
    (hmem : (b, tb) ∈ entries) (hmiss : dictLookup vs tb = none) :
    ∃ n, dictLookup vs n = none ∧
      resolveTargets vs entries = Exc.error (VError.keyError n) := by
  induction entries with
  | nil => cases hmem
  | cons kj rest ih =>
    obtain ⟨k, j⟩ := kj
    cases hj : dictLookup vs j with
    | none => exact ⟨j, hj, by simp [resolveTargets, hj]⟩
    | some ver =>
      have hmem' : (b, tb) ∈ rest := by
        rcases List.mem_cons.1 hmem with h | h
        · obtain ⟨hb, ht⟩ := Prod.mk.injEq .. ▸ h
          subst hb; subst ht; rw [hj] at hmiss; cases hmiss
        · exact h
      obtain ⟨n, hn2, hn3⟩ := ih hmem'
      exact ⟨n, hn2, by simp [resolveTargets, hj, hn3]⟩

/-- When every entry's target is a key of `vs`, `resolveTargets` succeeds. -/
theorem resolveTargets_ok {Obj : Type} (vs : List (String × Version Obj))
    (entries : List (String × String))
    (h : ∀ kv ∈ entries, (dictLookup vs kv.2).isSome = true) :
    ∃ l, resolveTargets vs entries = Exc.ok l := by
  induction entries with
  | nil => exact ⟨[], rfl⟩
  | cons kj rest ih =>
    obtain ⟨k, j⟩ := kj
    obtain ⟨ver, hver⟩ := Option.isSome_iff_exists.1 (h (k, j) (by simp))
    obtain ⟨l, hl⟩ := ih (fun q hq => h q (by simp [hq]))
    exact ⟨(k, ver) :: l, by simp [resolveTargets, hver, hl]⟩

/-! ### Claim theorems -/

/-- Claim C1: `resolve_ref` resolves with first-match-wins precedence: a key
of `versions` is returned unchanged; otherwise a key of `branches` yields the
branch's target; otherwise a key of `tags` yields the tag's target.  In
particular a string that is both a version name and a branch name resolves
to itself, not to the branch's target. -/
theorem resolve_ref_precedence {Obj : Type} (v : Versioning Obj) (ref : String) :
    ((dictLookup v._json.versions ref).isSome = true →
      Versioning.resolve_ref v ref = Exc.ok ref) ∧
    (dictLookup v._json.versions ref = none →
      ∀ t, dictLookup v._json.branches ref = some t →
        Versioning.resolve_ref v ref = Exc.ok t) ∧
    (dictLookup v._json.versions ref = none →
      dictLookup v._json.branches ref = none →
      ∀ t, dictLookup v._json.tags ref = some t →
        Versioning.resolve_ref v ref = Exc.ok t) ∧
    ((dictLookup v._json.versions ref).isSome = true →
      (dictLookup v._json.branches ref).isSome = true →
      Versioning.resolve_ref v ref = Exc.ok ref) :=
  ⟨fun h => resolve_ref_of_version v ref h,
   fun h1 t h2 => resolve_ref_of_branch v ref t h1 h2,
   fun h1 h2 t h3 => resolve_ref_of_tag v ref t h1 h2 h3,
   fun h _ => resolve_ref_of_version v ref h⟩

/-- Claim C1, instantiated on the concrete document `exV`: the shadowed name
`"A"` resolves to itself, the branch `"main"` and the tag `"t1"` resolve to
their targets. -/
theorem resolve_ref_precedence_witness :
    Versioning.resolve_ref exV "A" = Exc.ok "A" ∧
    Versioning.resolve_ref exV "main" = Exc.ok "B" ∧
    Versioning.resolve_ref exV "t1" = Exc.ok "A" := by
  refine ⟨?_, ?_, ?_⟩
  · exact (resolve_ref_precedence exV "A").2.2.2 (by decide) (by decide)
  · exact (resolve_ref_precedence exV "main").2.1 (by decide) "B" (by decide)
  · exact (resolve_ref_precedence exV "t1").2.2.1 (by decide) (by decide) "A" (by decide)

/-- Claim C2, counterexample: on the document with the dangling branch
`"ghost" -> "Z"` (no version `"Z"`), `resolve_ref("ghost")` raises no error
at all — it returns the dangling target `"Z"` — whereas the claim demands a
dangling-reference error at resolution time. -/
theorem resolve_ref_dangling_branch_cex :
    Versioning.resolve_ref ghostV "ghost" = Exc.ok "Z" := by decide

/-- Claim C2, amended: `resolve_ref` on a branch whose target is absent from
`versions` returns the dangling target name without error; the
dangling-reference `KeyError` (distinct from the unresolved `IndexError`)
surfaces only when the result is looked up, as in `get_version_from_ref`. -/
theorem resolve_ref_dangling_branch {Obj : Type} (v : Versioning Obj) (b t : String)
    (h1 : dictLookup v._json.versions b = none)
    (h2 : dictLookup v._json.branches b = some t)
    (h3 : dictLookup v._json.versions t = none) :
    Versioning.resolve_ref v b = Exc.ok t ∧
    Versioning.get_version_from_ref v b = Exc.error (VError.keyError t) ∧
    VError.keyError t ≠ VError.indexError := by
  have hres := resolve_ref_of_branch v b t h1 h2
  refine ⟨hres, ?_, fun h => VError.noConfusion h⟩
  exact get_version_from_ref_dangling v b t hres ((lookup_versions_none v t).2 h3)

/-- Claim C2 (amended), instantiated on the dangling-branch document. -/
theorem resolve_ref_dangling_branch_witness :
    Versioning.resolve_ref ghostV "ghost" = Exc.ok "Z" ∧
    Versioning.get_version_from_ref ghostV "ghost" = Exc.error (VError.keyError "Z") ∧
    VError.keyError "Z" ≠ VError.indexError :=
  resolve_ref_dangling_branch ghostV "ghost" "Z" (by decide) (by decide) (by decide)

/-- Claim C3: `get_version_from_ref` is the composition
`versions[resolve_ref(ref)]`: when resolution yields a name that is a key of
`versions` it returns that version (whose name is the resolved name); when
resolution raises, the same error propagates; when resolution succeeds but
the name is absent from `versions`, it raises the dangling-reference
`KeyError`, an error distinct from the unresolved `IndexError`. -/
theorem get_version_from_ref_spec {Obj : Type} (v : Versioning Obj) (ref : String) :
    (∀ n ver, Versioning.resolve_ref v ref = Exc.ok n →
        dictLookup (Versioning.versions v) n = some ver →
        Versioning.get_version_from_ref v ref = Exc.ok ver ∧ Version.name ver = n) ∧
    (∀ n, Versioning.resolve_ref v ref = Exc.ok n →
        dictLookup (Versioning.versions v) n = none →
        Versioning.get_version_from_ref v ref = Exc.error (VError.keyError n)) ∧
    (∀ e, Versioning.resolve_ref v ref = Exc.error e →
        Versioning.get_version_from_ref v ref = Exc.error e) ∧
    (∀ n, VError.keyError n ≠ VError.indexError) :=
  ⟨fun n ver h1 h2 =>
      ⟨get_version_from_ref_ok v ref n ver h1 h2, lookup_versions_name v n ver h2⟩,
   fun n h1 h2 => get_version_from_ref_dangling v ref n h1 h2,
   fun e h => get_version_from_ref_error v ref e h,
   fun _ h => VError.noConfusion h⟩

/-- Claim C3, instantiated: the resolved branch `"main"` yields version `B`;
the dangling resolution of `"ghost"` yields the `KeyError`; the unresolved
ref `"nope"` propagates the `IndexError`. -/
theorem get_version_from_ref_spec_witness :
    (Versioning.get_version_from_ref exV "main" = Exc.ok verB ∧
      Version.name verB = "B") ∧
    Versioning.get_version_from_ref ghostV "ghost" = Exc.error (VError.keyError "Z") ∧
    Versioning.get_version_from_ref exV "nope" = Exc.error VError.indexError := by
  refine ⟨(get_version_from_ref_spec exV "main").1 "B" verB (by decide) (by decide),
    ?_, ?_⟩
  · exact (get_version_from_ref_spec ghostV "ghost").2.1 "Z" (by decide) (by decide)
  · exact (get_version_from_ref_spec exV "nope").2.2.1 VError.indexError (by decide)

/-- Claim C4: a ref that is a key of none of `versions`, `branches` and
`tags` makes `resolve_ref` raise the unresolved-reference `IndexError`; no
fallback version name is returned. -/
theorem resolve_ref_unresolved {Obj : Type} (v : Versioning Obj) (ref : String)
    (h1 : dictLookup v._json.versions ref = none)
    (h2 : dictLookup v._json.branches ref = none)
    (h3 : dictLookup v._json.tags ref = none) :
    Versioning.resolve_ref v ref = Exc.error VError.indexError :=
  resolve_ref_of_none v ref h1 h2 h3

/-- Claim C4, instantiated: `"nope"` matches nothing in `exV`. -/
theorem resolve_ref_unresolved_witness :
    Versioning.resolve_ref exV "nope" = Exc.error VError.indexError :=
  resolve_ref_unresolved exV "nope" (by decide) (by decide) (by decide)

/-- Claim C5, counterexample: `exV` is well-formed and holds the branch
entry `"A" -> "B"`, yet `resolve_ref("A")` returns `"A"`, not the branch
target `"B"`: the version namespace shadows the branch of the same name, so
the claim fails as stated for shadowed branch names. -/
theorem resolve_ref_shadowed_branch_cex :
    Versioning.well_formed exV = true ∧
    dictLookup exV._json.branches "A" = some "B" ∧
    Versioning.resolve_ref exV "A" = Exc.ok "A" ∧
    ¬ Versioning.resolve_ref exV "A" = Exc.ok "B" := by decide

/-- Claim C5, amended: in a well-formed document, a version name resolves to
itself, a branch entry `b -> n` resolves to `n` provided `b` is not itself a
version name, and a tag entry `t -> n` resolves to `n` provided `t` is
neither a version name nor a branch name. -/
theorem resolve_ref_label_targets {Obj : Type} (v : Versioning Obj)
    (_hwf : Versioning.well_formed v = true) :
    (∀ n, (dictLookup v._json.versions n).isSome = true →
      Versioning.resolve_ref v n = Exc.ok n) ∧
    (∀ b n, dictLookup v._json.versions b = none →
      dictLookup v._json.branches b = some n →
      Versioning.resolve_ref v b = Exc.ok n) ∧
    (∀ t n, dictLookup v._json.versions t = none →
      dictLookup v._json.branches t = none →
      dictLookup v._json.tags t = some n →
      Versioning.resolve_ref v t = Exc.ok n) :=
  ⟨fun n h => resolve_ref_of_version v n h,
   fun b n h1 h2 => resolve_ref_of_branch v b n h1 h2,
   fun t n h1 h2 h3 => resolve_ref_of_tag v t n h1 h2 h3⟩

/-- Claim C5 (amended), instantiated on the well-formed document `exV`. -/
theorem resolve_ref_label_targets_witness :
    Versioning.resolve_ref exV "B" = Exc.ok "B" ∧
    Versioning.resolve_ref exV "main" = Exc.ok "B" ∧
    Versioning.resolve_ref exV "t1" = Exc.ok "A" := by
  have h := resolve_ref_label_targets exV (by decide)
  exact ⟨h.1 "B" (by decide), h.2.1 "main" "B" (by decide) (by decide),
    h.2.2 "t1" "A" (by decide) (by decide) (by decide)⟩

/-- Claim C6, counterexample: a version whose stored data carries a
`"parents"` entry equal to the empty list.  `has_parents()` returns `true`
for it, whereas the claim demands `false` for an empty stored parent list. -/
theorem has_parents_empty_list_cex :
    verE._json.parents = some [] ∧ Version.has_parents verE = true := by decide

/-- Claim C6, amended: `has_parents()` returns true iff the stored data
carries a `"parents"` entry — whatever list that entry holds; in particular
it returns true, not false, for a stored empty parent list. -/
theorem has_parents_iff_key {Obj : Type} (ver : Version Obj) :
    (Version.has_parents ver = true ↔ ∃ ps, ver._json.parents = some ps) ∧
    (ver._json.parents = some [] → Version.has_parents ver = true) := by
  constructor
  · simp [Version.has_parents, Option.isSome_iff_exists]
  · intro h; simp [Version.has_parents, h]

/-- Claim C7: for a version with a stored parent list, the `parents`
accessor looks every stored name up literally in the `versions` mapping —
its result does not depend on `branches` or `tags` at all — returning the
found versions in the stored order, and raises the dangling-reference
`KeyError` exactly when some stored name is absent from `versions`. -/
theorem parents_literal_lookup {Obj : Type} (v : Versioning Obj) (ver : Version Obj)
    (ps : List String) (h : ver._json.parents = some ps) :
    ((∀ p ∈ ps, (dictLookup (Versioning.versions v) p).isSome = true) →
      Version.parents v ver =
        Exc.ok (ps.filterMap (fun p => dictLookup (Versioning.versions v) p))) ∧
    (∀ p ∈ ps, dictLookup (Versioning.versions v) p = none →
      ∃ n, n ∈ ps ∧ dictLookup (Versioning.versions v) n = none ∧
        Version.parents v ver = Exc.error (VError.keyError n)) ∧
    (∀ bs ts, Version.parents
        (Versioning.mk (VersioningJson.mk v._json.versions bs ts)) ver =
      Version.parents v ver) := by
  have hp : Version.has_parents ver = true := by simp [Version.has_parents, h]
  refine ⟨?_, ?_, ?_⟩
  · intro hall
    simp [Version.parents, hp, h, lookupParents_ok (Versioning.versions v) ps hall]
  · intro p hmem hmiss
    obtain ⟨n, h1, h2, h3⟩ :=
      lookupParents_error (Versioning.versions v) ps p hmem hmiss
    exact ⟨n, h1, h2, by simp [Version.parents, hp, h, h3]⟩
  · intro bs ts
    rfl

/-- Claim C7, instantiated: version `B` stores the parent list `["A"]`, and
its `parents` accessor returns the version looked up under `"A"`. -/
theorem parents_literal_lookup_witness :
    Version.parents exV verB =
      Exc.ok (["A"].filterMap (fun p => dictLookup (Versioning.versions exV) p)) :=
  (parents_literal_lookup exV verB ["A"] (by decide)).1 (by decide)

/-- Claim C8: assigning the `message` field rewrites the message in the
stored data and changes nothing else observable: the version's name, author,
date, stored parent list, `has_parents` flag and resolved parents are the
same before and after the assignment. -/
theorem set_message_frame {Obj : Type} (ver : Version Obj) (msg : String) :
    Version.message (Version.set_message ver msg) = msg ∧
    Version.name (Version.set_message ver msg) = Version.name ver ∧
    Version.author (Version.set_message ver msg) = Version.author ver ∧
    Version.date (Version.set_message ver msg) = Version.date ver ∧
    Version.has_parents (Version.set_message ver msg) = Version.has_parents ver ∧
    (Version.set_message ver msg)._json.parents = ver._json.parents ∧
    ∀ v : Versioning Obj, Version.parents v (Version.set_message ver msg) =
      Version.parents v ver :=
  ⟨rfl, rfl, rfl, rfl, rfl, rfl, fun _ => rfl⟩

/-- Claim C9: a branch (or tag) whose target version name is absent from
`versions` makes the versioning-level `branches` (or `tags`) dict raise a
lookup `KeyError` for some dangling target, and then the derived
`branches` (or `tags`) list of every version raises the same error; with no
dangling targets (`well_formed`) both dicts are defined. -/
theorem dangling_target_breaks_indices {Obj : Type} (v : Versioning Obj)
    (ver : Version Obj) (b tb : String) :
    ((b, tb) ∈ v._json.branches → dictLookup v._json.versions tb = none →
      ∃ n, dictLookup v._json.versions n = none ∧
        Versioning.branches v = Exc.error (VError.keyError n) ∧
        Version.branches v ver = Exc.error (VError.keyError n)) ∧
    ((b, tb) ∈ v._json.tags → dictLookup v._json.versions tb = none →
      ∃ n, dictLookup v._json.versions n = none ∧
        Versioning.tags v = Exc.error (VError.keyError n) ∧
        Version.tags v ver = Exc.error (VError.keyError n)) ∧
    (Versioning.well_formed v = true →
      (∃ l, Versioning.branches v = Exc.ok l) ∧
      ∃ l, Versioning.tags v = Exc.ok l) := by
  refine ⟨?_, ?_, ?_⟩
  · intro hmem hmiss
    obtain ⟨n, hn1, hn2⟩ := resolveTargets_error (Versioning.versions v)
      v._json.branches b tb hmem ((lookup_versions_none v tb).2 hmiss)
    have hb : Versioning.branches v = Exc.error (VError.keyError n) := hn2
    refine ⟨n, (lookup_versions_none v n).1 hn1, hb, ?_⟩
    unfold Version.branches
    rw [hb]
  · intro hmem hmiss
    obtain ⟨n, hn1, hn2⟩ := resolveTargets_error (Versioning.versions v)
      v._json.tags b tb hmem ((lookup_versions_none v tb).2 hmiss)
    have ht : Versioning.tags v = Exc.error (VError.keyError n) := hn2
    refine ⟨n, (lookup_versions_none v n).1 hn1, ht, ?_⟩
    unfold Version.tags
    rw [ht]
  · intro hwf
    rw [Versioning.well_formed, Bool.and_eq_true] at hwf
    have h1 : ∀ kv ∈ v._json.branches,
        (dictLookup (Versioning.versions v) kv.2).isSome = true := by
      intro kv hkv
      rw [isSome_lookup_versions]
      exact List.all_eq_true.1 hwf.1 kv hkv
    have h2 : ∀ kv ∈ v._json.tags,
        (dictLookup (Versioning.versions v) kv.2).isSome = true := by
      intro kv hkv
      rw [isSome_lookup_versions]
      exact List.all_eq_true.1 hwf.2 kv hkv
    exact ⟨resolveTargets_ok (Versioning.versions v) v._json.branches h1,
      resolveTargets_ok (Versioning.versions v) v._json.tags h2⟩

/-- Claim C9, instantiated on the dangling document `ghostV`: both derived
dicts and the per-version reverse indices fail, even for version `A`, which
is unrelated to the dangling entries. -/
theorem dangling_target_breaks_indices_witness :
    (∃ n, dictLookup ghostV._json.versions n = none ∧
      Versioning.branches ghostV = Exc.error (VError.keyError n) ∧
      Version.branches ghostV verA = Exc.error (VError.keyError n)) ∧
    ∃ n, dictLookup ghostV._json.versions n = none ∧
      Versioning.tags ghostV = Exc.error (VError.keyError n) ∧
      Version.tags ghostV verA = Exc.error (VError.keyError n) :=
  ⟨(dangling_target_breaks_indices ghostV verA "ghost" "Z").1 (by decide) (by decide),
   (dangling_target_breaks_indices ghostV verA "ghostT" "Z").2.1 (by decide) (by decide)⟩

/-- Claim C10: a version whose stored data has no `"parents"` entry at all
(equivalently, whose `has_parents()` is false) gets the empty list from the
`parents` accessor, with no error raised. -/
theorem parents_total_on_roots {Obj : Type} (v : Versioning Obj) (ver : Version Obj) :
    (ver._json.parents = none → Version.parents v ver = Exc.ok []) ∧
    (Version.has_parents ver = false → Version.parents v ver = Exc.ok []) := by
  constructor
  · intro h
    simp [Version.parents, Version.has_parents, h]
  · intro h
    simp [Version.parents, h]

/-- Claim C10, instantiated: the root version `A` has no stored parents and
its accessor returns the empty list. -/
theorem parents_total_on_roots_witness :
    Version.parents exV verA = Exc.ok [] :=
  (parents_total_on_roots exV verA).1 (by decide)
